import Mathlib

/-!
# Verification of the twilio-video.js recording bot

A shallow embedding of the recording bot's two source files
(`src/app.js`, the sandboxed browser context, and `src/index.js`, the
host context), with theorems settling the specification's claims about
the recorder lifecycle, the shutdown drain, the idle-room timers, the
host close sequence and the chunked binary-to-text transport codec.

Bytes are modelled as `Nat` values (`< 256` where the source guarantees a
`Uint8Array`), JavaScript strings as lists of their UTF-16 code units,
and the JavaScript `number` counters as `Int`.
-/

namespace RecordingBot

/-! ## Binary transport codec (src/app.js `arrayBufferToString`,
     src/index.js `stringToArrayBuffer`) -/

/-- The inner `for` loop of `arrayBufferToString` (src/app.js lines
335-337): starting at offset `i`, while `i < blocklength`, append the
code units of `bufView.subarray(i, i + blocksize)` (each byte maps to
the code unit of `String.fromCharCode`) and advance by `blocksize`. -/
def encodeChunks (bufView : List Nat) (blocksize i blocklength : Nat) : List Nat :=
  if _h : 0 < blocksize ∧ i < blocklength then
    ((bufView.drop i).take blocksize) ++ encodeChunks bufView blocksize (i + blocksize) blocklength
  else
    []
termination_by blocklength - i
decreasing_by omega

/-- Model of `arrayBufferToString` (src/app.js lines 327-345): split the buffer
into 8192-byte blocks by floor division (`parseInt(length / blocksize) *
blocksize`), convert each block to characters via the loop, then append
the trailing partial block when `length > blocklength`. The resulting
JavaScript string is modelled as the list of its code units. -/
def arrayBufferToString (buffer : List Nat) : List Nat :=
  let length := buffer.length
  let blocksize := 8192
  let blocklength := length / blocksize * blocksize
  let result := encodeChunks buffer blocksize 0 blocklength
  if blocklength < length then
    result ++ ((buffer.drop blocklength).take (length - blocklength))
  else
    result

/-- Model of `stringToArrayBuffer` (src/index.js lines 197-207): allocate a
`Uint8Array` of `string.length` and write `string.charCodeAt(i)` into
each slot; the `Uint8Array` store coerces each code unit modulo 256. -/
def stringToArrayBuffer (string : List Nat) : List Nat :=
  string.map (fun c => c % 256)

/-- Splitting a list into consecutive blocks of `bs` elements; used only
to state the chunking claim ("the concatenation of each block
independently encoded"). -/
def chunksOf (bs : Nat) (l : List Nat) : List (List Nat) :=
  if h : 0 < bs ∧ l ≠ [] then
    l.take bs :: chunksOf bs (l.drop bs)
  else
    []
termination_by l.length
decreasing_by
  have hlen : l.length ≠ 0 := fun hl => h.2 (List.eq_nil_of_length_eq_zero hl)
  have hbs := h.1
  simp only [List.length_drop]
  omega

/-! ## Session model (src/app.js) -/

/-- The path of a Recording File, `recordings/<roomName>/<identity>.<kind>/
<subscriptionIndex>.webm` (src/app.js lines 274-279); the `trackIndex`
component is the string `identity + "." + kind` (line 269). -/
structure RecPath where
  roomName : String
  trackIndex : String
  subIndex : Nat
deriving DecidableEq, Repr

/-- The `MediaRecorder.state` values the code inspects; `trackUnsubscribed`
tests `recorder.state === 'recording'` (src/app.js line 174). -/
inductive RecorderState where
  | inactive
  | recording
  | paused
deriving DecidableEq, Repr

/-- A registered recorder: its target file (`recorder.filename`, line 288),
its `MediaRecorder` state, and the bytes captured since the last
`dataavailable` flush. -/
structure Recorder where
  path : RecPath
  state : RecorderState
  buffered : List Nat
deriving DecidableEq, Repr

/-- Observable actions of the sandboxed context, in program order:
recorder control calls, bridge calls (`createRecording`,
`appendRecording`, `room.disconnect()`), error logs the claims mention,
and invocations of a caller-supplied stopped-callback probe. -/
inductive Event where
  | pauseCalled (p : RecPath)
  | requestDataCalled (p : RecPath)
  | append (p : RecPath) (bytes : List Nat)
  | stopCalled (p : RecPath)
  | stopped (p : RecPath) (newCount : Int)
  | cbInvoked (newCount : Int)
  | recorderNotFound (trackid : String)
  | countMismatch (count : Int) (size : Nat)
  | zeroSizeData
  | createRec (p : RecPath)
  | recStart (p : RecPath)
  | disconnect
deriving DecidableEq, Repr

/-- The module-level mutable state of src/app.js lines 119-122: the
`recorders` map (trackid to `MediaRecorder`, insertion-ordered like a JS
`Map`), the `subscriptionCounts` map, the `recorderCount` counter, the
`resolve`d flag of the pending `shutdown()` promise, and the trace of
observable events. -/
structure SessionState where
  recorders : List (String × Recorder)
  subscriptionCounts : List (String × Nat)
  recorderCount : Int
  resolved : Bool
  events : List Event
deriving DecidableEq, Repr

/-- Model of `Map.get`: first binding of the key, if any. -/
def lookupA {α : Type} (k : String) : List (String × α) → Option α
  | [] => none
  | (k', v) :: rest => if k' = k then some v else lookupA k rest

/-- Model of `Map.delete`: remove the binding of the key, if any. -/
def eraseA {α : Type} (k : String) : List (String × α) → List (String × α)
  | [] => []
  | (k', v) :: rest => if k' = k then rest else (k', v) :: eraseA k rest

/-- Model of `Map.set`: replace the binding in place, or append a new one. -/
def insertA {α : Type} (k : String) (v : α) : List (String × α) → List (String × α)
  | [] => [(k, v)]
  | (k', v') :: rest => if k' = k then (k, v) :: rest else (k', v') :: insertA k v rest

/-- The observable events of the drain sequence installed by
`trackUnsubscribed` (src/app.js lines 176-197) on a recorder in the
`recording` state: `recorder.pause()` fires `onpause`, which wraps
`ondataavailable` (dropping size-0 events), calls `recorder.requestData()`
— flushing the buffered bytes through the wrapped handler, whose
`FileReader` path calls `appendRecording` — and then `recorder.stop()`;
the final `dataavailable` fired by `stop` carries size 0 and is dropped by
the wrapper, and `onstop` then reports the `stopped` transition with the
decremented count. -/
def drainEvents (p : RecPath) (buffered : List Nat) (newCount : Int) : List Event :=
  [Event.pauseCalled p, Event.requestDataCalled p] ++
    (if buffered.isEmpty then [] else [Event.append p buffered]) ++
    [Event.stopCalled p, Event.stopped p newCount]

/-- Model of `trackUnsubscribed(trackid, stopped_callback)` (src/app.js lines
170-201): look the recorder up, delete its map entry, and either run the
pause/requestData/stop drain — `onstop` decrements `recorderCount` and
invokes the callback with the updated count — or log that the recorder
was not found or not recording. The callback is the caller-supplied
continuation (a no-op from the room handler at line 97, the resolve
check from `shutdown`, or the restart closure from the resize
listener). -/
def trackUnsubscribed (trackid : String) (cb : Int → SessionState → SessionState)
    (s : SessionState) : SessionState :=
  let found := lookupA trackid s.recorders
  let s1 : SessionState := { s with recorders := eraseA trackid s.recorders }
  match found with
  | some recorder =>
    if recorder.state = RecorderState.recording then
      let newCount := s1.recorderCount - 1
      let s2 : SessionState :=
        { s1 with
            recorderCount := newCount,
            events := s1.events ++ drainEvents recorder.path recorder.buffered newCount }
      cb newCount s2
    else
      { s1 with events := s1.events ++ [Event.recorderNotFound trackid] }
  | none =>
    { s1 with events := s1.events ++ [Event.recorderNotFound trackid] }

/-- A probe continuation that records the count it was invoked with; used
to state that a drain invokes its caller-supplied continuation exactly
once with the updated count. -/
def probeCb : Int → SessionState → SessionState :=
  fun c s => { s with events := s.events ++ [Event.cbInvoked c] }

/-- The `callback` closure of `shutdown` (src/app.js lines 126-130):
resolve the shutdown promise once the reported count reaches zero. -/
def shutdownCb : Int → SessionState → SessionState :=
  fun c s => if c ≤ 0 then { s with resolved := true } else s

/-- Model of `startRecorder(stream, track, identity)` (src/app.js lines 263-316):
bump the subscription count for `identity.kind`, call `createRecording`
for the new file and its metadata, register a new `MediaRecorder` under
the track id, and `recorder.start(10000)` — whose `onstart` increments
`recorderCount`. -/
def startRecorder (trackid identity kind : String) (roomName : String)
    (s : SessionState) : SessionState :=
  let trackIndex := identity ++ "." ++ kind
  let subscriptionCount := (lookupA trackIndex s.subscriptionCounts).getD 0 + 1
  let p : RecPath := ⟨roomName, trackIndex, subscriptionCount⟩
  { s with
      subscriptionCounts := insertA trackIndex subscriptionCount s.subscriptionCounts,
      recorders := insertA trackid ⟨p, RecorderState.recording, []⟩ s.recorders,
      recorderCount := s.recorderCount + 1,
      events := s.events ++ [Event.createRec p, Event.recStart p] }

/-- The `resize` listener installed by `record` (src/app.js lines
248-256): stop the existing recorder for the track id and, inside the
stopped continuation, build a fresh stream and start a new recorder for
the same track. -/
def handleResize (trackid identity kind : String) (roomName : String)
    (s : SessionState) : SessionState :=
  trackUnsubscribed trackid (fun _ s' => startRecorder trackid identity kind roomName s') s

/-- The `ondataavailable` handler installed by `startRecorder` (src/app.js
lines 295-309): a size-0 event is logged and dropped; otherwise the chunk
is sent to `appendRecording` for the recorder's file. -/
def dataAvailable (trackid : String) (bytes : List Nat) (s : SessionState) : SessionState :=
  match lookupA trackid s.recorders with
  | some recorder =>
    if bytes.isEmpty then
      { s with events := s.events ++ [Event.zeroSizeData] }
    else
      { s with events := s.events ++ [Event.append recorder.path bytes] }
  | none => s

/-- Whether an event is an `appendRecording` bridge call; used to count
the appends a drain produces. -/
def isAppendEvent : Event → Bool
  | Event.append _ _ => true
  | _ => false

/-- The events of draining a list of recorders in map order, the count
starting at `c` and decrementing once per recorder. -/
def drainAllEvents (c : Int) : List (String × Recorder) → List Event
  | [] => []
  | (_, r) :: rest => drainEvents r.path r.buffered (c - 1) ++ drainAllEvents (c - 1) rest

/-- Model of `shutdown()` (src/app.js lines 124-151): if any recorders are
registered, first reconcile `recorderCount` against `recorders.size`
(logging the mismatch), then dispatch `trackUnsubscribed` for every
registered track id with the resolve-when-zero callback; with no
recorders, resolve immediately. The `.then` continuation disconnects
from the room — only reachable once the promise resolved — provided the
room exists and is not already disconnected (`roomConnected`). -/
def shutdown (roomConnected : Bool) (s : SessionState) : SessionState :=
  let s1 :=
    if s.recorders.length > 0 then
      let s0 :=
        if s.recorderCount ≠ (s.recorders.length : Int) then
          { s with
              events := s.events ++ [Event.countMismatch s.recorderCount s.recorders.length],
              recorderCount := (s.recorders.length : Int) }
        else s
      (s0.recorders.map Prod.fst).foldl (fun acc tid => trackUnsubscribed tid shutdownCb acc) s0
    else
      { s with resolved := true }
  if s1.resolved && roomConnected then
    { s1 with events := s1.events ++ [Event.disconnect] }
  else
    s1

/-! ## Room occupancy and idle timers (src/app.js `main`) -/

/-- Constant `roomEndingTimeoutSeconds` (src/app.js line 14). -/
def roomEndingTimeoutSeconds : Nat := 60

/-- Constant `roomStartingTimeoutSeconds` (src/app.js line 15). -/
def roomStartingTimeoutSeconds : Nat := 600

/-- The idle-timer state of the sandboxed context: the duration in
seconds of the armed `emptyRoomTimeout`, if any, and the number of
`parentClose` requests issued by a timer firing. -/
structure RoomState where
  emptyRoomTimeout : Option Nat
  closeRequests : Nat
deriving DecidableEq, Repr

/-- The post-connect occupancy check of `main` (src/app.js lines 41-45):
with no remote participants in the freshly joined room, arm
`setTimeout(parentClose, roomStartingTimeoutSeconds * 1000)`. -/
def initialOccupancyCheck (participants : Nat) (s : RoomState) : RoomState :=
  if participants = 0 then
    { s with emptyRoomTimeout := some roomStartingTimeoutSeconds }
  else s

/-- The `participantConnected` handler (src/app.js lines 65-71): if an
idle timer is armed, `clearTimeout` it and null the handle. -/
def participantConnected (s : RoomState) : RoomState :=
  match s.emptyRoomTimeout with
  | some _ => { s with emptyRoomTimeout := none }
  | none => s

/-- The `participantDisconnected` handler (src/app.js lines 73-80): if the
room is now empty, arm `setTimeout(parentClose,
roomEndingTimeoutSeconds * 1000)`. -/
def participantDisconnected (remaining : Nat) (s : RoomState) : RoomState :=
  if remaining = 0 then
    { s with emptyRoomTimeout := some roomEndingTimeoutSeconds }
  else s

/-- A timer deadline passing: a timer that is still armed fires
`parentClose` (a close request); a cleared timer never runs. -/
def idleTimerFires (s : RoomState) : RoomState :=
  match s.emptyRoomTimeout with
  | some _ => { s with emptyRoomTimeout := none, closeRequests := s.closeRequests + 1 }
  | none => s

/-! ## Host-side close sequence (src/index.js `close`) -/

/-- The teardown stages of host-side `close` (src/index.js lines
148-191), in source order: drain the sandboxed context via
`page.evaluate(shutdown())`, the fixed 10-second grace wait,
`server.close()`, `page.evaluate(close())`, `browser.close()`, and
`process.exit`. -/
inductive Stage where
  | shutdownRecorders
  | graceWait
  | closeServer
  | closePage
  | closeBrowser
  | exitProcess
deriving DecidableEq, Repr

/-- The host context's state: the `isClosing` guard (src/index.js line
24) and the teardown stages performed so far. -/
structure HostState where
  isClosing : Bool
  executed : List Stage
deriving DecidableEq, Repr

/-- The stages `close` performs given which resources were created
(src/index.js lines 158-190): the page-guarded stages run only if `page`
is set, `server.close()` only if `server` is set, `browser.close()` only
if `browser` is set; the grace wait and the process exit are
unconditional. -/
def closeStagesFor (hasPage hasServer hasBrowser : Bool) : List Stage :=
  (if hasPage then [Stage.shutdownRecorders] else []) ++
    [Stage.graceWait] ++
    (if hasServer then [Stage.closeServer] else []) ++
    (if hasPage then [Stage.closePage] else []) ++
    (if hasBrowser then [Stage.closeBrowser] else []) ++
    [Stage.exitProcess]

/-- Performing a run of stages (each an awaited step of `close`). -/
def execStages (l : List Stage) (s : HostState) : HostState :=
  { s with executed := s.executed ++ l }

/-- One invocation of `close` run to completion from the current state
(src/index.js lines 148-191): return immediately if `isClosing` is
already set; otherwise set the guard — synchronously, before the first
`await` — and perform every stage. -/
def closeCall (hasPage hasServer hasBrowser : Bool) (s : HostState) : HostState :=
  if s.isClosing then s
  else execStages (closeStagesFor hasPage hasServer hasBrowser) { s with isClosing := true }

/-- Two concurrent invocations of `close` on a fresh host state: the
first sets the `isClosing` guard synchronously and then suspends at each
`await`; the second is dispatched after the first has completed `k` of
its stages (any suspension point, `k = 0` being the first `await`), runs
to completion, and the first then resumes its remaining stages. -/
def closeInterleaved (hasPage hasServer hasBrowser : Bool) (k : Nat) : HostState :=
  let s0 : HostState := ⟨false, []⟩
  let s1 : HostState := { s0 with isClosing := true }
  let s2 := execStages ((closeStagesFor hasPage hasServer hasBrowser).take k) s1
  let s3 := closeCall hasPage hasServer hasBrowser s2
  execStages ((closeStagesFor hasPage hasServer hasBrowser).drop k) s3

/-! ## Codec lemmas -/

/-- The chunk loop starting at `i` and running for `k` full blocks
reproduces the `bs * k` bytes of the buffer that start at offset `i`. -/
theorem encodeChunks_eq (bufView : List Nat) (bs : Nat) (hbs : 0 < bs) :
    ∀ (k i : Nat), encodeChunks bufView bs i (i + bs * k) = (bufView.drop i).take (bs * k) := by
  intro k
  induction k with
  | zero =>
    intro i
    rw [encodeChunks]
    simp
  | succ k ih =>
    intro i
    rw [encodeChunks]
    have hlt : i < i + bs * (k + 1) := by
      have : 0 < bs * (k + 1) := Nat.mul_pos hbs (Nat.succ_pos k)
      omega
    rw [dif_pos ⟨hbs, hlt⟩]
    have harg : i + bs * (k + 1) = (i + bs) + bs * k := by ring
    rw [harg, ih (i + bs)]
    have hdrop : (bufView.drop (i + bs)) = (bufView.drop i).drop bs := by
      rw [List.drop_drop]
    rw [hdrop]
    have hmul : bs * (k + 1) = bs + bs * k := by ring
    rw [hmul, List.take_add]

/-- Encoding reproduces the bytes of its input as code
units: chunked conversion loses and duplicates nothing. -/
theorem arrayBufferToString_eq_self (buffer : List Nat) :
    arrayBufferToString buffer = buffer := by
  have hmain :
      encodeChunks buffer 8192 0 (buffer.length / 8192 * 8192) =
        buffer.take (buffer.length / 8192 * 8192) := by
    have hbl : buffer.length / 8192 * 8192 = 0 + 8192 * (buffer.length / 8192) := by ring
    rw [hbl, encodeChunks_eq buffer 8192 (by norm_num) (buffer.length / 8192) 0,
      List.drop_zero]
    congr 1
    ring
  have hle : buffer.length / 8192 * 8192 ≤ buffer.length := Nat.div_mul_le_self _ _
  simp only [arrayBufferToString]
  by_cases hlt : buffer.length / 8192 * 8192 < buffer.length
  · rw [if_pos hlt, hmain, ← List.take_add]
    have h2 : buffer.length / 8192 * 8192 + (buffer.length - buffer.length / 8192 * 8192)
        = buffer.length := by omega
    rw [h2, List.take_length]
  · rw [if_neg hlt, hmain]
    have h2 : buffer.length / 8192 * 8192 = buffer.length := by omega
    rw [h2, List.take_length]

/-- Concatenating the blocks of `chunksOf` restores the original list. -/
theorem chunksOf_flatten (bs : Nat) (hbs : 0 < bs) :
    ∀ (n : Nat) (l : List Nat), l.length ≤ n → (chunksOf bs l).flatten = l := by
  intro n
  induction n with
  | zero =>
    intro l hl
    have : l = [] := List.eq_nil_of_length_eq_zero (Nat.le_zero.mp hl)
    subst this
    rw [chunksOf]
    simp
  | succ n ih =>
    intro l hl
    by_cases hnil : l = []
    · subst hnil
      rw [chunksOf]
      simp
    · rw [chunksOf, dif_pos ⟨hbs, hnil⟩]
      simp only [List.flatten_cons]
      have hlen : (l.drop bs).length ≤ n := by
        have : l.length ≠ 0 := fun h => hnil (List.eq_nil_of_length_eq_zero h)
        simp only [List.length_drop]
        omega
      rw [ih (l.drop bs) hlen, List.take_append_drop]

/-- Every block produced by `chunksOf` is nonempty. -/
theorem chunksOf_ne_nil (bs : Nat) :
    ∀ (n : Nat) (l : List Nat), l.length ≤ n → ∀ c ∈ chunksOf bs l, c ≠ [] := by
  intro n
  induction n with
  | zero =>
    intro l hl c hc
    have : l = [] := List.eq_nil_of_length_eq_zero (Nat.le_zero.mp hl)
    subst this
    rw [chunksOf] at hc
    simp at hc
  | succ n ih =>
    intro l hl c hc
    by_cases h : 0 < bs ∧ l ≠ []
    · rw [chunksOf, dif_pos h] at hc
      rcases List.mem_cons.mp hc with rfl | htl
      · intro habs
        have hbs := h.1
        cases l with
        | nil => exact h.2 rfl
        | cons a t =>
          cases bs with
          | zero => omega
          | succ m => simp at habs
      · have hlen : (l.drop bs).length ≤ n := by
          have : l.length ≠ 0 := fun hz => h.2 (List.eq_nil_of_length_eq_zero hz)
          simp only [List.length_drop]
          omega
        exact ih (l.drop bs) hlen c htl
    · rw [chunksOf, dif_neg h] at hc
      simp at hc


/-! ## Session lemmas -/

/-- Looking a key up after `insertA` of that key finds the new value. -/
theorem lookupA_insertA {α : Type} (k : String) (v : α) :
    ∀ (l : List (String × α)), lookupA k (insertA k v l) = some v := by
  intro l
  induction l with
  | nil => simp [insertA, lookupA]
  | cons hd tl ih =>
    by_cases hk : hd.1 = k
    · simp [insertA, hk, lookupA]
    · simp only [insertA]
      rw [if_neg hk]
      simp only [lookupA]
      rw [if_neg hk]
      exact ih

/-- A drain on a registered recorder in the `recording` state: the
callback is applied exactly once, to the decremented count and the state
whose trace extends by the drain block and whose map entry is erased. -/
theorem trackUnsubscribed_recording (trackid : String)
    (cb : Int → SessionState → SessionState) (s : SessionState) (r : Recorder)
    (hfound : lookupA trackid s.recorders = some r)
    (hrec : r.state = RecorderState.recording) :
    trackUnsubscribed trackid cb s =
      cb (s.recorderCount - 1)
        { s with
            recorders := eraseA trackid s.recorders,
            recorderCount := s.recorderCount - 1,
            events := s.events ++ drainEvents r.path r.buffered (s.recorderCount - 1) } := by
  simp only [trackUnsubscribed, hfound, hrec, if_pos]

/-- A drain on a missing or non-`recording` recorder: the entry is
removed, the not-found error is logged, and nothing else changes — in
particular the callback is never invoked (the result does not depend on
it) and `recorderCount` and `resolved` are untouched. -/
theorem trackUnsubscribed_not_recording (trackid : String)
    (cb : Int → SessionState → SessionState) (s : SessionState)
    (h : ∀ r, lookupA trackid s.recorders = some r → r.state ≠ RecorderState.recording) :
    trackUnsubscribed trackid cb s =
      { s with
          recorders := eraseA trackid s.recorders,
          events := s.events ++ [Event.recorderNotFound trackid] } := by
  simp only [trackUnsubscribed]
  cases hfound : lookupA trackid s.recorders with
  | none => rfl
  | some r =>
    have := h r hfound
    simp only [this, if_neg]
    simp [this]

/-- The shutdown fold drains every registered recorder in map order when
all of them are in the `recording` state and the counter starts at the
map size: the map empties, the counter reaches zero, the promise
resolves (when there was at least one recorder), and the trace extends
by exactly the drain blocks. -/
theorem shutdown_fold_drains (l : List (String × Recorder)) :
    ∀ (subs : List (String × Nat)) (b : Bool) (E : List Event),
      (∀ p ∈ l, p.2.state = RecorderState.recording) →
      (l.map Prod.fst).foldl (fun acc tid => trackUnsubscribed tid shutdownCb acc)
          ⟨l, subs, (l.length : Int), b, E⟩ =
        ⟨[], subs, 0, b || !l.isEmpty, E ++ drainAllEvents (l.length : Int) l⟩ := by
  induction l with
  | nil =>
    intro subs b E _
    simp [drainAllEvents]
  | cons hd tl ih =>
    intro subs b E hall
    obtain ⟨tid, r⟩ := hd
    simp only [List.map_cons, List.foldl_cons]
    have hfound : lookupA tid (((tid, r) :: tl) : List (String × Recorder)) = some r := by
      simp [lookupA]
    have hrec : r.state = RecorderState.recording := hall (tid, r) (List.mem_cons_self _ _)
    rw [trackUnsubscribed_recording tid shutdownCb _ r hfound hrec]
    have herase : eraseA tid (((tid, r) :: tl) : List (String × Recorder)) = tl := by
      simp [eraseA]
    simp only [shutdownCb, herase]
    have hlen : ((((tid, r) :: tl).length : Int)) - 1 = (tl.length : Int) := by
      simp
    by_cases hz : ((((tid, r) :: tl).length : Int)) - 1 ≤ 0
    · have htl : tl = [] := by
        rw [hlen] at hz
        have : tl.length = 0 := by omega
        exact List.eq_nil_of_length_eq_zero this
      subst htl
      rw [if_pos hz]
      simp only [List.map_nil, List.foldl_nil]
      simp [drainAllEvents, drainEvents]
    · rw [if_neg hz]
      rw [hlen] at hz ⊢
      have htl : tl ≠ [] := by
        intro habs
        subst habs
        simp at hz
      have := ih subs b (E ++ drainEvents r.path r.buffered ((((tid, r) :: tl).length : Int) - 1))
        (fun p hp => hall p (List.mem_cons_of_mem _ hp))
      rw [hlen] at this
      rw [this]
      simp only [drainAllEvents, List.isEmpty_cons, htl]
      rw [hlen]
      simp [htl, List.append_assoc, List.isEmpty_eq_true]

/-- The drain trace never contains the room-disconnect event. -/
theorem disconnect_not_mem_drainAllEvents :
    ∀ (l : List (String × Recorder)) (c : Int), Event.disconnect ∉ drainAllEvents c l := by
  intro l
  induction l with
  | nil => intro c; simp [drainAllEvents]
  | cons hd tl ih =>
    intro c
    simp only [drainAllEvents, List.mem_append]
    push_neg
    refine ⟨?_, ih (c - 1)⟩
    simp only [drainEvents, List.mem_append, List.mem_cons]
    intro habs
    rcases habs with h1 | h2
    · rcases h1 with h1 | h1
      · simp at h1
      · split at h1 <;> simp at h1
    · simp at h2

/-- Every drained recorder's `stopped` transition appears in the drain
trace. -/
theorem stopped_mem_drainAllEvents :
    ∀ (l : List (String × Recorder)) (c : Int),
      ∀ p ∈ l, ∃ m, Event.stopped p.2.path m ∈ drainAllEvents c l := by
  intro l
  induction l with
  | nil => intro c p hp; simp at hp
  | cons hd tl ih =>
    intro c p hp
    rcases List.mem_cons.mp hp with rfl | hp'
    · exact ⟨c - 1, by simp [drainAllEvents, drainEvents]⟩
    · obtain ⟨m, hm⟩ := ih (c - 1) p hp'
      exact ⟨m, by
        simp only [drainAllEvents, List.mem_append]
        exact Or.inr hm⟩

/-- A `dataavailable` callback only ever extends the event trace. -/
theorem dataAvailable_events_extend (tid : String) (b : List Nat) (s : SessionState) :
    ∃ e, (dataAvailable tid b s).events = s.events ++ e := by
  cases h : lookupA tid s.recorders with
  | none => exact ⟨[], by simp [dataAvailable, h]⟩
  | some r =>
    by_cases hb : b.isEmpty
    · exact ⟨[Event.zeroSizeData], by simp [dataAvailable, h, hb]⟩
    · exact ⟨[Event.append r.path b], by simp [dataAvailable, h, hb]⟩

/-- A run of `dataavailable` callbacks only ever extends the event
trace. -/
theorem dataAvailable_foldl_events (tid : String) (chunks : List (List Nat)) :
    ∀ s : SessionState, ∃ tail,
      (chunks.foldl (fun acc b => dataAvailable tid b acc) s).events = s.events ++ tail := by
  induction chunks with
  | nil =>
    intro s
    exact ⟨[], by simp⟩
  | cons c cs ih =>
    intro s
    obtain ⟨e, he⟩ := dataAvailable_events_extend tid c s
    obtain ⟨tail, ht⟩ := ih (dataAvailable tid c s)
    refine ⟨e ++ tail, ?_⟩
    simp only [List.foldl_cons]
    rw [ht, he, List.append_assoc]

/-- A full characterization of `shutdown` on a session with at least one
registered recorder, all of them `recording`, and an unresolved promise:
the counter is first reconciled (logging the mismatch if any), every
recorder is drained from the reconciled count, the promise resolves and
the disconnect is issued exactly when the room was connected. -/
theorem shutdown_run (rec : List (String × Recorder)) (subs : List (String × Nat))
    (c : Int) (ev : List Event) (rc : Bool)
    (hne : rec ≠ [])
    (hall : ∀ p ∈ rec, p.2.state = RecorderState.recording) :
    shutdown rc (⟨rec, subs, c, false, ev⟩ : SessionState) =
      ⟨[], subs, 0, true,
        (ev ++ (if c ≠ (rec.length : Int) then [Event.countMismatch c rec.length] else []) ++
            drainAllEvents (rec.length : Int) rec) ++
          (if rc then [Event.disconnect] else [])⟩ := by
  have hlen : rec.length > 0 := List.length_pos.mpr hne
  have hie : rec.isEmpty = false := by
    cases rec with
    | nil => exact absurd rfl hne
    | cons a t => rfl
  simp only [shutdown]
  rw [if_pos hlen]
  by_cases hc : c ≠ (rec.length : Int)
  · rw [if_pos hc]
    have hfold := shutdown_fold_drains rec subs false
      (ev ++ [Event.countMismatch c rec.length]) hall
    simp only at hfold ⊢
    rw [hfold]
    simp only [hie, Bool.not_false, Bool.false_or, Bool.true_and]
    rw [if_pos hc]
    cases rc <;> simp
  · rw [if_neg hc]
    push_neg at hc
    subst hc
    have hfold := shutdown_fold_drains rec subs false ev hall
    simp only at hfold ⊢
    rw [hfold]
    simp only [hie, Bool.not_false, Bool.false_or, Bool.true_and, ne_eq, not_true_eq_false,
      if_false]
    cases rc <;> simp

/-! ## Claim theorems -/

/-- C2: for every byte sequence `b` (each byte in 0..255, any length
including 0 and non-multiples of the 8192-byte chunk size), decoding the
transport encoding reconstructs exactly `b`:
`stringToArrayBuffer (arrayBufferToString b) = b`. -/
theorem codec_round_trip (b : List Nat) (hb : ∀ x ∈ b, x < 256) :
    stringToArrayBuffer (arrayBufferToString b) = b := by
  rw [arrayBufferToString_eq_self]
  simp only [stringToArrayBuffer]
  have : b.map (fun c => c % 256) = b.map id :=
    List.map_congr_left (fun a ha => Nat.mod_eq_of_lt (hb a ha))
  simpa using this

/-- Witness for C2 at the bytes `[0, 255, 7, 128]`. -/
theorem codec_round_trip_witness :
    (∀ x ∈ ([0, 255, 7, 128] : List Nat), x < 256) ∧
      stringToArrayBuffer (arrayBufferToString [0, 255, 7, 128]) = [0, 255, 7, 128] :=
  ⟨by decide, codec_round_trip [0, 255, 7, 128] (by decide)⟩

/-- C8: `encode` splits its input by floor division of the length by the
8192-byte block size. For a length that is an exact multiple, the output
equals the concatenation of each block independently encoded, with no
empty chunk; for a non-multiple length, the trailing remainder is
appended exactly once after the encoded full blocks. -/
theorem encode_chunking (b : List Nat) :
    ((8192 : Nat) ∣ b.length →
      arrayBufferToString b = ((chunksOf 8192 b).map arrayBufferToString).flatten ∧
        ∀ c ∈ chunksOf 8192 b, c ≠ []) ∧
    (¬ (8192 : Nat) ∣ b.length →
      arrayBufferToString b =
          arrayBufferToString (b.take (b.length / 8192 * 8192)) ++
            b.drop (b.length / 8192 * 8192) ∧
        b.drop (b.length / 8192 * 8192) ≠ []) := by
  constructor
  · intro _
    constructor
    · have hmap : (chunksOf 8192 b).map arrayBufferToString = (chunksOf 8192 b).map id :=
        List.map_congr_left (fun c _ => arrayBufferToString_eq_self c)
      rw [hmap, List.map_id, chunksOf_flatten 8192 (by norm_num) b.length b le_rfl,
        arrayBufferToString_eq_self]
    · exact chunksOf_ne_nil 8192 b.length b le_rfl
  · intro hnd
    have hlt : b.length / 8192 * 8192 < b.length := by
      rcases Nat.lt_or_ge (b.length / 8192 * 8192) b.length with h | h
      · exact h
      · exfalso
        have hle : b.length / 8192 * 8192 ≤ b.length := Nat.div_mul_le_self _ _
        have heq : b.length / 8192 * 8192 = b.length := le_antisymm hle h
        exact hnd ⟨b.length / 8192, by omega⟩
    constructor
    · rw [arrayBufferToString_eq_self, arrayBufferToString_eq_self, List.take_append_drop]
    · intro habs
      have : b.length - b.length / 8192 * 8192 = 0 := by
        have := congrArg List.length habs
        simpa using this
      omega

/-- Witness for C8: the multiple-of-8192 branch at the empty buffer and
the non-multiple branch at `[1, 2, 3]`. -/
theorem encode_chunking_witness :
    ((8192 : Nat) ∣ ([] : List Nat).length ∧
      arrayBufferToString [] = ((chunksOf 8192 []).map arrayBufferToString).flatten ∧
        ∀ c ∈ chunksOf 8192 ([] : List Nat), c ≠ []) ∧
    (¬ (8192 : Nat) ∣ ([1, 2, 3] : List Nat).length ∧
      arrayBufferToString [1, 2, 3] =
          arrayBufferToString (([1, 2, 3] : List Nat).take
            (([1, 2, 3] : List Nat).length / 8192 * 8192)) ++
            ([1, 2, 3] : List Nat).drop (([1, 2, 3] : List Nat).length / 8192 * 8192) ∧
        ([1, 2, 3] : List Nat).drop (([1, 2, 3] : List Nat).length / 8192 * 8192) ≠ []) :=
  ⟨⟨⟨0, rfl⟩, (encode_chunking []).1 ⟨0, rfl⟩⟩,
   ⟨by norm_num, (encode_chunking [1, 2, 3]).2 (by norm_num)⟩⟩

/-- C5: a room that starts with zero participants arms the idle timer
with the longer grace period (`roomStartingTimeoutSeconds`); a room
whose participant set becomes empty after having participants arms it
with the shorter grace period (`roomEndingTimeoutSeconds`); a
participant connecting before the timer fires clears it, so a later
deadline issues no close request. -/
theorem idle_timer_semantics (s : RoomState) :
    (initialOccupancyCheck 0 s).emptyRoomTimeout = some roomStartingTimeoutSeconds ∧
      roomEndingTimeoutSeconds < roomStartingTimeoutSeconds ∧
      (participantDisconnected 0 s).emptyRoomTimeout = some roomEndingTimeoutSeconds ∧
      (participantConnected s).emptyRoomTimeout = none ∧
      (idleTimerFires (participantConnected s)).closeRequests = s.closeRequests := by
  have hclear : (participantConnected s).emptyRoomTimeout = none := by
    cases h : s.emptyRoomTimeout <;> simp [participantConnected, h]
  have hcr : (participantConnected s).closeRequests = s.closeRequests := by
    cases h : s.emptyRoomTimeout <;> simp [participantConnected, h]
  refine ⟨rfl, by norm_num [roomEndingTimeoutSeconds, roomStartingTimeoutSeconds], rfl,
    hclear, ?_⟩
  rw [idleTimerFires, hclear]
  exact hcr

/-- C6: invoking the host-side global close sequence a second time —
dispatched at any suspension point of a first in-flight invocation —
performs the teardown stages exactly once: the `isClosing` guard is set
synchronously before the first suspension point, so the second call
returns immediately. -/
theorem close_idempotent_concurrent (hasPage hasServer hasBrowser : Bool) (k : Nat) :
    (closeInterleaved hasPage hasServer hasBrowser k).executed =
        closeStagesFor hasPage hasServer hasBrowser ∧
      ∀ st ∈ closeStagesFor hasPage hasServer hasBrowser,
        ((closeInterleaved hasPage hasServer hasBrowser k).executed).count st = 1 := by
  have hnodup : (closeStagesFor hasPage hasServer hasBrowser).Nodup := by
    cases hasPage <;> cases hasServer <;> cases hasBrowser <;> decide
  have hexec : (closeInterleaved hasPage hasServer hasBrowser k).executed =
      closeStagesFor hasPage hasServer hasBrowser := by
    simp [closeInterleaved, closeCall, execStages, List.take_append_drop]
  refine ⟨hexec, fun st hst => ?_⟩
  rw [hexec]
  exact List.count_eq_one_of_mem hnodup hst

/-- C1: requesting the stop of a recorder in the `recording` state via
`trackUnsubscribed` runs the drain sequence pause, final `requestData`,
stop; it produces exactly one final append carrying the data buffered
before the stop request (and none when nothing was buffered), decrements
the active recorder count exactly once, and invokes the caller-supplied
continuation with the updated count. -/
theorem recorder_drain_exactly_once (s : SessionState) (trackid : String) (r : Recorder)
    (hfound : lookupA trackid s.recorders = some r)
    (hrec : r.state = RecorderState.recording) :
    (trackUnsubscribed trackid probeCb s).events =
        s.events ++
          ([Event.pauseCalled r.path, Event.requestDataCalled r.path] ++
            (if r.buffered.isEmpty then [] else [Event.append r.path r.buffered]) ++
            [Event.stopCalled r.path, Event.stopped r.path (s.recorderCount - 1),
              Event.cbInvoked (s.recorderCount - 1)]) ∧
      (trackUnsubscribed trackid probeCb s).recorderCount = s.recorderCount - 1 ∧
      ((trackUnsubscribed trackid probeCb s).events.filter isAppendEvent) =
        s.events.filter isAppendEvent ++
          (if r.buffered.isEmpty then [] else [Event.append r.path r.buffered]) := by
  rw [trackUnsubscribed_recording trackid probeCb s r hfound hrec]
  refine ⟨?_, rfl, ?_⟩
  · simp [probeCb, drainEvents]
  · simp only [probeCb, drainEvents, List.filter_append, List.append_assoc]
    by_cases hb : r.buffered.isEmpty <;>
      simp [hb, isAppendEvent, List.filter]

/-- Witness for C1: a session holding one recording recorder with two
buffered bytes and count 1; the drain appends once, reaches count 0 and
reports 0 to the continuation. -/
theorem recorder_drain_exactly_once_witness :
    lookupA "t"
        [("t", (⟨⟨"room", "alice.audio", 1⟩, RecorderState.recording, [5, 6]⟩ : Recorder))] =
      some (⟨⟨"room", "alice.audio", 1⟩, RecorderState.recording, [5, 6]⟩ : Recorder) ∧
    (⟨⟨"room", "alice.audio", 1⟩, RecorderState.recording, [5, 6]⟩ : Recorder).state =
      RecorderState.recording ∧
    (trackUnsubscribed "t" probeCb
        ⟨[("t", ⟨⟨"room", "alice.audio", 1⟩, RecorderState.recording, [5, 6]⟩)],
          [("alice.audio", 1)], 1, false, []⟩).recorderCount = 1 - 1 :=
  ⟨by decide, rfl,
    (recorder_drain_exactly_once
      ⟨[("t", ⟨⟨"room", "alice.audio", 1⟩, RecorderState.recording, [5, 6]⟩)],
        [("alice.audio", 1)], 1, false, []⟩
      "t" ⟨⟨"room", "alice.audio", 1⟩, RecorderState.recording, [5, 6]⟩
      (by decide) rfl).2.1⟩

/-- C10: `trackUnsubscribed` on a track id with no registered recorder,
or whose recorder is not in the `recording` state, removes the map entry
and logs an error but leaves the count and the shutdown promise
untouched and never invokes the supplied continuation — the result does
not depend on the callback at all, so a shutdown drain dispatching such
an entry never fires its count-reaching-zero continuation for it. -/
theorem unsubscribe_unknown_recorder (s : SessionState) (trackid : String)
    (h : ∀ r, lookupA trackid s.recorders = some r → r.state ≠ RecorderState.recording) :
    (∀ cb, trackUnsubscribed trackid cb s =
        { s with
            recorders := eraseA trackid s.recorders,
            events := s.events ++ [Event.recorderNotFound trackid] }) ∧
      (trackUnsubscribed trackid shutdownCb s).recorderCount = s.recorderCount ∧
      (trackUnsubscribed trackid shutdownCb s).resolved = s.resolved := by
  have hcb := fun cb => trackUnsubscribed_not_recording trackid cb s h
  exact ⟨hcb, by rw [hcb shutdownCb], by rw [hcb shutdownCb]⟩

/-- Witness for C10: a session whose recorder map is empty. -/
theorem unsubscribe_unknown_recorder_witness :
    (∀ r, lookupA "t" (([] : List (String × Recorder))) = some r →
        r.state ≠ RecorderState.recording) ∧
      (trackUnsubscribed "t" shutdownCb (⟨[], [], 3, false, []⟩ : SessionState)).recorderCount
        = 3 :=
  ⟨fun r hr => absurd hr (by simp [lookupA]),
    (unsubscribe_unknown_recorder (⟨[], [], 3, false, []⟩ : SessionState) "t"
      (fun r hr => absurd hr (by simp [lookupA]))).2.1⟩

/-- C4: `shutdown()` on a session whose registered recorders are all
recording drains every one of them and issues the room disconnect only
after the active recorder count has reached zero: every recorder's
`stopped` transition sits in the trace before the final `disconnect`
event, the count ends at zero and the promise is resolved. -/
theorem shutdown_disconnects_after_drain (s : SessionState)
    (hne : s.recorders ≠ [])
    (hall : ∀ p ∈ s.recorders, p.2.state = RecorderState.recording)
    (hres : s.resolved = false) :
    (∃ X, (shutdown true s).events = s.events ++ X ++ [Event.disconnect] ∧
        Event.disconnect ∉ X ∧
        ∀ p ∈ s.recorders, ∃ m, Event.stopped p.2.path m ∈ X) ∧
      (shutdown true s).recorderCount = 0 ∧
      (shutdown true s).resolved = true := by
  obtain ⟨rec, subs, c, res, ev⟩ := s
  have hres' : res = false := hres
  subst hres'
  rw [shutdown_run rec subs c ev true hne hall]
  refine ⟨⟨(if c ≠ (rec.length : Int) then [Event.countMismatch c rec.length] else []) ++
      drainAllEvents (rec.length : Int) rec, ?_, ?_, ?_⟩, rfl, rfl⟩
  · simp [List.append_assoc]
  · intro habs
    rcases List.mem_append.mp habs with h1 | h2
    · split at h1 <;> simp at h1
    · exact disconnect_not_mem_drainAllEvents rec _ h2
  · intro p hp
    obtain ⟨m, hm⟩ := stopped_mem_drainAllEvents rec (rec.length : Int) p hp
    exact ⟨m, List.mem_append.mpr (Or.inr hm)⟩

/-- Witness for C4: a session with one recording recorder and count 1
drains to count 0. -/
theorem shutdown_disconnects_after_drain_witness :
    ((⟨[("t", ⟨⟨"r", "a.audio", 1⟩, RecorderState.recording, [7]⟩)], [("a.audio", 1)], 1,
        false, []⟩ : SessionState).recorders ≠ []) ∧
      (∀ p ∈ (⟨[("t", ⟨⟨"r", "a.audio", 1⟩, RecorderState.recording, [7]⟩)], [("a.audio", 1)],
          1, false, []⟩ : SessionState).recorders, p.2.state = RecorderState.recording) ∧
      (shutdown true
          (⟨[("t", ⟨⟨"r", "a.audio", 1⟩, RecorderState.recording, [7]⟩)], [("a.audio", 1)], 1,
            false, []⟩ : SessionState)).recorderCount = 0 :=
  ⟨by decide, by decide,
    (shutdown_disconnects_after_drain
      (⟨[("t", ⟨⟨"r", "a.audio", 1⟩, RecorderState.recording, [7]⟩)], [("a.audio", 1)], 1,
        false, []⟩ : SessionState) (by decide) (by decide) rfl).2.1⟩

/-- C9: when `shutdown()` begins draining and the tracked count differs
from the number of registered recorder entries, the drift is logged (the
mismatch event precedes every drain event in the trace) and the counter
is resynchronized to the registered-recorder count before the drain
proceeds; the drain then terminates against the reconciled count,
reaching zero and resolving. -/
theorem shutdown_reconciles_count (s : SessionState)
    (hne : s.recorders ≠ [])
    (hmis : s.recorderCount ≠ (s.recorders.length : Int))
    (hall : ∀ p ∈ s.recorders, p.2.state = RecorderState.recording)
    (hres : s.resolved = false) :
    (shutdown true s).events =
        s.events ++ [Event.countMismatch s.recorderCount s.recorders.length] ++
          drainAllEvents (s.recorders.length : Int) s.recorders ++ [Event.disconnect] ∧
      (shutdown true s).recorderCount = 0 ∧
      (shutdown true s).resolved = true := by
  obtain ⟨rec, subs, c, res, ev⟩ := s
  have hres' : res = false := hres
  subst hres'
  rw [shutdown_run rec subs c ev true hne hall]
  have hm : c ≠ (rec.length : Int) := hmis
  refine ⟨?_, rfl, rfl⟩
  simp [hm, List.append_assoc]

/-- Witness for C9: one recording recorder but a drifted count of 5; the
drain still ends at count 0 with the promise resolved. -/
theorem shutdown_reconciles_count_witness :
    ((⟨[("t", ⟨⟨"r", "a.audio", 1⟩, RecorderState.recording, []⟩)], [("a.audio", 1)], 5,
        false, []⟩ : SessionState).recorders ≠ []) ∧
      ((⟨[("t", ⟨⟨"r", "a.audio", 1⟩, RecorderState.recording, []⟩)], [("a.audio", 1)], 5,
          false, []⟩ : SessionState).recorderCount ≠ 1) ∧
      (shutdown true
          (⟨[("t", ⟨⟨"r", "a.audio", 1⟩, RecorderState.recording, []⟩)], [("a.audio", 1)], 5,
            false, []⟩ : SessionState)).recorderCount = 0 :=
  ⟨by decide, by decide,
    (shutdown_reconciles_count
      (⟨[("t", ⟨⟨"r", "a.audio", 1⟩, RecorderState.recording, []⟩)], [("a.audio", 1)], 5,
        false, []⟩ : SessionState) (by decide) (by decide) (by decide) rfl).2.1⟩

/-- C3: a resize event for a recorded track first drains the existing
recorder for that track id and only inside its stopped continuation
creates the new recorder: in the trace, the old recorder's `stopped`
transition precedes both the `createRecording` call and the start of the
new recorder; the new recorder uses subscription index `N + 1` for the
same (identity, kind) key, so its Recording File differs from the old
one and the two recorders never write the same file concurrently. -/
theorem resize_restarts_after_stop (s : SessionState)
    (trackid identity kind roomName : String) (r : Recorder) (N : Nat)
    (hfound : lookupA trackid s.recorders = some r)
    (hrec : r.state = RecorderState.recording)
    (hsub : lookupA (identity ++ "." ++ kind) s.subscriptionCounts = some N)
    (hpath : r.path = ⟨roomName, identity ++ "." ++ kind, N⟩) :
    (handleResize trackid identity kind roomName s).events =
        s.events ++ drainEvents r.path r.buffered (s.recorderCount - 1) ++
          [Event.createRec ⟨roomName, identity ++ "." ++ kind, N + 1⟩,
            Event.recStart ⟨roomName, identity ++ "." ++ kind, N + 1⟩] ∧
      (⟨roomName, identity ++ "." ++ kind, N + 1⟩ : RecPath) ≠ r.path ∧
      lookupA trackid (handleResize trackid identity kind roomName s).recorders =
        some ⟨⟨roomName, identity ++ "." ++ kind, N + 1⟩, RecorderState.recording, []⟩ ∧
      lookupA (identity ++ "." ++ kind)
          (handleResize trackid identity kind roomName s).subscriptionCounts = some (N + 1) ∧
      (∃ pre post,
        (handleResize trackid identity kind roomName s).events =
          pre ++ Event.createRec ⟨roomName, identity ++ "." ++ kind, N + 1⟩ :: post ∧
          Event.stopped r.path (s.recorderCount - 1) ∈ pre) := by
  have hmain : handleResize trackid identity kind roomName s =
      startRecorder trackid identity kind roomName
        { s with
            recorders := eraseA trackid s.recorders,
            recorderCount := s.recorderCount - 1,
            events := s.events ++ drainEvents r.path r.buffered (s.recorderCount - 1) } := by
    rw [handleResize, trackUnsubscribed_recording trackid _ s r hfound hrec]
  rw [hmain]
  refine ⟨?_, ?_, ?_, ?_, ?_⟩
  · simp [startRecorder, hsub]
  · rw [hpath]
    intro habs
    have := congrArg RecPath.subIndex habs
    simp at this
  · simp only [startRecorder, hsub]
    exact lookupA_insertA trackid _ _
  · simp only [startRecorder, hsub]
    exact lookupA_insertA (identity ++ "." ++ kind) _ _
  · refine ⟨s.events ++ drainEvents r.path r.buffered (s.recorderCount - 1),
      [Event.recStart ⟨roomName, identity ++ "." ++ kind, N + 1⟩], ?_, ?_⟩
    · simp [startRecorder, hsub]
    · simp [drainEvents]

/-- Witness for C3: one recording video recorder at subscription index 1;
the resize restart registers index 2 and a distinct file path. -/
theorem resize_restarts_after_stop_witness :
    lookupA "t"
        (⟨[("t", ⟨⟨"room", "alice.video", 1⟩, RecorderState.recording, [9]⟩)],
          [("alice.video", 1)], 1, false, []⟩ : SessionState).recorders =
      some ⟨⟨"room", "alice.video", 1⟩, RecorderState.recording, [9]⟩ ∧
    lookupA ("alice" ++ "." ++ "video")
        (⟨[("t", ⟨⟨"room", "alice.video", 1⟩, RecorderState.recording, [9]⟩)],
          [("alice.video", 1)], 1, false, []⟩ : SessionState).subscriptionCounts = some 1 ∧
    (⟨"room", "alice" ++ "." ++ "video", 1 + 1⟩ : RecPath) ≠
      (⟨⟨"room", "alice.video", 1⟩, RecorderState.recording, [9]⟩ : Recorder).path :=
  ⟨by decide, by decide,
    (resize_restarts_after_stop
      (⟨[("t", ⟨⟨"room", "alice.video", 1⟩, RecorderState.recording, [9]⟩)],
        [("alice.video", 1)], 1, false, []⟩ : SessionState)
      "t" "alice" "video" "room"
      ⟨⟨"room", "alice.video", 1⟩, RecorderState.recording, [9]⟩ 1
      (by decide) rfl (by decide) (by decide)).2.1⟩

/-- C7: the `createRecording` bridge call for a new Recording File is
issued before the recorder starts, so in any run that starts a recorder
and then delivers data chunks, the metadata-creation event for that
file precedes every `appendRecording` event for the same subscription
index. -/
theorem metadata_before_first_append (s : SessionState)
    (tid identity kind roomName : String) (chunks : List (List Nat))
    (hfresh : ∀ b,
      Event.append
          ⟨roomName, identity ++ "." ++ kind,
            (lookupA (identity ++ "." ++ kind) s.subscriptionCounts).getD 0 + 1⟩ b ∉
        s.events) :
    ∃ pre post,
      (chunks.foldl (fun acc b => dataAvailable tid b acc)
          (startRecorder tid identity kind roomName s)).events =
        pre ++
          Event.createRec
            ⟨roomName, identity ++ "." ++ kind,
              (lookupA (identity ++ "." ++ kind) s.subscriptionCounts).getD 0 + 1⟩ :: post ∧
      ∀ b, Event.append
          ⟨roomName, identity ++ "." ++ kind,
            (lookupA (identity ++ "." ++ kind) s.subscriptionCounts).getD 0 + 1⟩ b ∉ pre := by
  obtain ⟨tail, htail⟩ :=
    dataAvailable_foldl_events tid chunks (startRecorder tid identity kind roomName s)
  refine ⟨s.events,
    Event.recStart
        ⟨roomName, identity ++ "." ++ kind,
          (lookupA (identity ++ "." ++ kind) s.subscriptionCounts).getD 0 + 1⟩ :: tail,
    ?_, hfresh⟩
  rw [htail]
  simp [startRecorder]

/-- Witness for C7: a fresh session recording `alice.video` in room
`room` with one 2-byte chunk delivered. -/
theorem metadata_before_first_append_witness :
    (∀ b, Event.append (⟨"room", "alice" ++ "." ++ "video", 1⟩ : RecPath) b ∉
        (⟨[], [], 0, false, []⟩ : SessionState).events) ∧
      ∃ pre post,
        (([[1, 2]] : List (List Nat)).foldl (fun acc b => dataAvailable "t" b acc)
            (startRecorder "t" "alice" "video" "room" (⟨[], [], 0, false, []⟩ : SessionState))).events =
          pre ++ Event.createRec (⟨"room", "alice" ++ "." ++ "video", 1⟩ : RecPath) :: post ∧
        ∀ b, Event.append (⟨"room", "alice" ++ "." ++ "video", 1⟩ : RecPath) b ∉ pre :=
  ⟨fun b h => absurd h (List.not_mem_nil _),
    metadata_before_first_append (⟨[], [], 0, false, []⟩ : SessionState) "t" "alice" "video"
      "room" [[1, 2]] (fun b h => absurd h (List.not_mem_nil _))⟩

end RecordingBot
